import Mathlib

/-!
Verification of the backup utility in `backup.py`.

The program walks each source path with `os.walk`, writes every discovered
file into a zip archive at a computed path, and prints a one-line summary.
The definitions below embed the module function by function; filesystem
state is a finite tree of directories and files, and the archive-writing
step is modelled by the sequence of handle events it performs together
with an optional error.
-/

set_option autoImplicit false

namespace Backup

/-! ### POSIX path helpers (`os.path.join`, path splitting for resolution) -/

/-- Split a path string on `/`, dropping empty components, by structural
recursion over the character list (the accumulator holds the current
component reversed). -/
def splitPathAux : List Char → List Char → List String
  | [], acc => if acc.isEmpty then [] else [String.mk acc.reverse]
  | c :: cs, acc =>
    if c = '/' then
      if acc.isEmpty then splitPathAux cs []
      else String.mk acc.reverse :: splitPathAux cs []
    else splitPathAux cs (c :: acc)

/-- Components of a path string, as used to resolve it in the tree. -/
def splitPath (p : String) : List String := splitPathAux p.data []

/-- The first character is a slash. -/
def headIsSlash (s : String) : Bool :=
  match s.data with
  | [] => false
  | c :: _ => c = '/'

/-- The last character is a slash. -/
def lastIsSlash (s : String) : Bool :=
  match s.data.getLast? with
  | some c => c = '/'
  | none => false

/-- Embeds `os.path.join(a, b)` for POSIX: an absolute second argument wins;
otherwise the separator is inserted unless already present. -/
def pjoin (a b : String) : String :=
  if headIsSlash b then b
  else if a = "" || lastIsSlash a then a ++ b
  else a ++ "/" ++ b

/-! ### Filesystem model -/

mutual
/-- A node of the filesystem tree: a regular file (with its byte size) or a
directory with named children. -/
inductive FSNode : Type where
  | file (size : Nat) : FSNode
  | dir (entries : FSEntries) : FSNode

/-- Named children of a directory, in scan order. -/
inductive FSEntries : Type where
  | nil : FSEntries
  | cons (name : String) (node : FSNode) (rest : FSEntries) : FSEntries
end

/-- Whether a node is a directory. -/
def FSNode.isDir : FSNode → Bool
  | .dir _ => true
  | .file _ => false

/-- Look up a child by name. -/
def findEntry (name : String) : FSEntries → Option FSNode
  | .nil => none
  | .cons n node rest => if n = name then some node else findEntry name rest

/-- Names of the directory children, in order (the `dirs` of `os.walk`). -/
def dirNames : FSEntries → List String
  | .nil => []
  | .cons n node rest => if node.isDir then n :: dirNames rest else dirNames rest

/-- Names of the non-directory children, in order (the `files` of `os.walk`). -/
def fileNames : FSEntries → List String
  | .nil => []
  | .cons n node rest => if node.isDir then fileNames rest else n :: fileNames rest

/-- Resolve a component list against a node; `none` if the path does not
exist (descending below a file also fails). -/
def resolve : FSNode → List String → Option FSNode
  | node, [] => some node
  | .file _, _ :: _ => none
  | .dir entries, n :: rest =>
    match findEntry n entries with
    | some c => resolve c rest
    | none => none

/-- Embeds `os.path.exists`. -/
def existsPath (fs : FSNode) (p : String) : Bool := (resolve fs (splitPath p)).isSome

/-- One `os.walk` triple: the root string, the directory names, the file names. -/
abbrev WalkTriple := String × List String × List String

mutual
/-- Top-down traversal of a node, as `os.walk` yields it: the triple for the
directory itself, then the triples of each subdirectory in order. Walking a
regular file yields nothing. -/
def walkNode (top : String) : FSNode → List WalkTriple
  | .file _ => []
  | .dir entries => (top, dirNames entries, fileNames entries) :: walkEntries top entries

/-- Traversal of the children; only directory children contribute triples. -/
def walkEntries (top : String) : FSEntries → List WalkTriple
  | .nil => []
  | .cons n node rest => walkNode (pjoin top n) node ++ walkEntries top rest
end

/-- Embeds `os.walk(top)`: errors from a missing or non-directory top are
silently ignored (the default `onerror=None`), yielding no triples. -/
def osWalk (fs : FSNode) (top : String) : List WalkTriple :=
  match resolve fs (splitPath top) with
  | some node => walkNode top node
  | none => []

/-- Example tree: a regular file `a.txt` and a directory `subdir`
containing `b.txt`. -/
def exFs : FSNode :=
  .dir (.cons "a.txt" (.file 5)
    (.cons "subdir" (.dir (.cons "b.txt" (.file 3) .nil)) .nil))

/-- Example tree holding one empty directory. -/
def exFsEmpty : FSNode := .dir (.cons "emptydir" (.dir .nil) .nil)

example : osWalk exFs "subdir" = [("subdir", [], ["b.txt"])] := by decide
example : osWalk exFs "subdir/" = [("subdir/", [], ["b.txt"])] := by decide
example : osWalk exFs "a.txt" = [] := by decide
example : osWalk exFs "missing" = [] := by decide

/-! ### Destination creation (`os.makedirs`, lines 141 to 143 of `main`) -/

/-- Replace the child named `name` with `newNode` (used when a parent
directory already exists and a descendant changes underneath it). -/
def replaceEntry (name : String) (newNode : FSNode) : FSEntries → FSEntries
  | .nil => .nil
  | .cons n node rest =>
    if n = name then .cons n newNode rest
    else .cons n node (replaceEntry name newNode rest)

/-- Append a fresh child at the end of the listing. -/
def appendEntry (name : String) (node : FSNode) : FSEntries → FSEntries
  | .nil => .cons name node .nil
  | .cons n c rest => .cons n c (appendEntry name node rest)

/-- Embeds `os.makedirs(path)` with the default `exist_ok=False`: every
missing component is created as a directory; an existing directory on the
way is entered; a file on the way raises; an already existing leaf raises. -/
def makedirs : FSNode → List String → Except String FSNode
  | _, [] => .error "FileNotFoundError"
  | .file _, _ :: _ => .error "NotADirectoryError"
  | .dir entries, [n] =>
    match findEntry n entries with
    | some _ => .error "FileExistsError"
    | none => .ok (.dir (appendEntry n (.dir .nil) entries))
  | .dir entries, n :: rest =>
    match findEntry n entries with
    | some c => (makedirs c rest).map (fun c2 => FSNode.dir (replaceEntry n c2 entries))
    | none =>
      (makedirs (.dir .nil) rest).map (fun c2 => FSNode.dir (appendEntry n c2 entries))

/-- Embeds lines 141 to 143 of `main`: the destination directory is created
only when `os.path.exists` is false. -/
def main_prestep (fs : FSNode) (destination : String) : Except String FSNode :=
  if existsPath fs destination then .ok fs
  else makedirs fs (splitPath destination)

/-- Whether an optional node is a directory. -/
def isDirOpt : Option FSNode → Bool
  | some (.dir _) => true
  | _ => false

/-- Whether an optional node is a regular file. -/
def isFileOpt : Option FSNode → Bool
  | some (.file _) => true
  | _ => false

/-- A directory exists at the given component list. -/
def dirExistsAt (fs : FSNode) (comps : List String) : Bool := isDirOpt (resolve fs comps)

/-! ### Timestamp and archive path (`get_current_time`, `create_zip_filepath`) -/

/-- A wall-clock instant, the input of `datetime.datetime.now().strftime`. -/
structure DateTime where
  year : Nat
  month : Nat
  day : Nat
  hour : Nat
  minute : Nat
  second : Nat

/-- Two-digit zero-padded decimal field, as `strftime` prints `%d`, `%m`,
`%y`, `%H`, `%M`, `%S` (all of which are below 100 for real instants). -/
def pad2 (n : Nat) : String :=
  if n < 100 then String.mk [Nat.digitChar (n / 10), Nat.digitChar (n % 10)]
  else toString n

/-- Embeds `get_current_time`: `now.strftime("%d-%m-%y_%H-%M-%S")`. -/
def get_current_time (now : DateTime) : String :=
  pad2 now.day ++ "-" ++ pad2 now.month ++ "-" ++ pad2 (now.year % 100) ++ "_" ++
    pad2 now.hour ++ "-" ++ pad2 now.minute ++ "-" ++ pad2 now.second

/-- Embeds `create_zip_filepath`: the base name defaults to
`backup_<timestamp>` and the destination is joined with a literal slash. -/
def create_zip_filepath (current_time destination : String) (name : Option String) : String :=
  let zip_name :=
    match name with
    | none => "backup_" ++ current_time ++ ".zip"
    | some n => n ++ ".zip"
  destination ++ "/" ++ zip_name

/-- Seventeen characters of the shape `dd-dd-dd_dd-dd-dd` where `d` is a
decimal digit. -/
def isTimestampShape (cs : List Char) : Bool :=
  match cs with
  | [d1, d2, c1, m1, m2, c2, y1, y2, c3, h1, h2, c4, n1, n2, c5, s1, s2] =>
    d1.isDigit && d2.isDigit && decide (c1 = '-') && m1.isDigit && m2.isDigit &&
      decide (c2 = '-') && y1.isDigit && y2.isDigit && decide (c3 = '_') &&
      h1.isDigit && h2.isDigit && decide (c4 = '-') && n1.isDigit && n2.isDigit &&
      decide (c5 = '-') && s1.isDigit && s2.isDigit
  | _ => false

/-- The file name matches the regular expression
`backup_\d{2}-\d{2}-\d{2}_\d{2}-\d{2}-\d{2}\.zip`. -/
def matchesBackupPattern (s : String) : Bool :=
  decide (s.data.take 7 = ['b', 'a', 'c', 'k', 'u', 'p', '_']) &&
    isTimestampShape ((s.data.drop 7).take 17) &&
    decide ((s.data.drop 7).drop 17 = ['.', 'z', 'i', 'p'])

example : matchesBackupPattern "backup_12-10-26_13-45-07.zip" = true := by decide
example : matchesBackupPattern "backup_12-10-26_13-45-0x.zip" = false := by decide
example : matchesBackupPattern "mybackup.zip" = false := by decide

/-! ### Archive writing (`create_zip_file`) -/

/-- The observable actions taken on the archive file handle. -/
inductive Event : Type where
  | openArchive (path : String)
  | writeEntry (path : String)
  | closeArchive
deriving DecidableEq

/-- The file paths the nested loops of `create_zip_file` pass to
`zip_obj.write`, in order: for each source, for each walk triple, the join
of the root and each file name. -/
def collectEntries (fs : FSNode) (sources : List String) : List String :=
  sources.flatMap (fun source =>
    (osWalk fs source).flatMap (fun t => t.2.2.map (fun file => pjoin t.1 file)))

/-- Write the entries one at a time; `failWrite` says which writes the
filesystem rejects. The result is the write events performed before the
first failure, and the failure if any. -/
def writeEntries (failWrite : String → Bool) : List String → List Event × Option String
  | [] => ([], none)
  | p :: rest =>
    if failWrite p then ([], some ("ArchiveWriteError: " ++ p))
    else
      let r := writeEntries failWrite rest
      (Event.writeEntry p :: r.1, r.2)

/-- Embeds `create_zip_file`: open the handle (`openFails` says whether the
filesystem rejects the open), write every collected entry, and call
`close()` only after the loop ends; an exception inside the loop skips the
close. -/
def create_zip_file (fs : FSNode) (failWrite : String → Bool) (openFails : Bool)
    (zip_filepath : String) (sources : List String) : List Event × Option String :=
  if openFails then ([], some "ArchiveOpenError")
  else
    let r := writeEntries failWrite (collectEntries fs sources)
    match r.2 with
    | some e => (Event.openArchive zip_filepath :: r.1, some e)
    | none => (Event.openArchive zip_filepath :: r.1 ++ [Event.closeArchive], none)

/-- Names passed to `zip_obj.write`, read back from the event trace. -/
def writtenNames (trace : List Event) : List String :=
  trace.filterMap (fun e =>
    match e with
    | .writeEntry p => some p
    | _ => none)

/-! ### Summary reporting (`print_finish_message`) -/

/-- Round `100 * b / 1048576` to the nearest integer, ties to even: the
value printed with two decimals for a byte size `b`. Because the divisor
is a power of two, `b / (1024*1024)` is an exact double for every realistic
`b`, so this is exactly what the `:.2f` format of the Python source prints. -/
def round2 (b : Nat) : Nat :=
  if 2 * (100 * b % 1048576) < 1048576 then 100 * b / 1048576
  else if 1048576 < 2 * (100 * b % 1048576) then 100 * b / 1048576 + 1
  else if 100 * b / 1048576 % 2 = 0 then 100 * b / 1048576
  else 100 * b / 1048576 + 1

/-- Decimal rendering of `b / (1024*1024)` with exactly two digits after the
point. -/
def fmt2 (b : Nat) : String :=
  toString (round2 b / 100) ++ "." ++ pad2 (round2 b % 100)

/-- Embeds `print_finish_message`; `getsize` models `os.path.getsize`, the
on-disk byte size of the path. The returned string is the printed line. -/
def print_finish_message (getsize : String → Nat) (sources : List String)
    (destination : String) (zip_filepath : String) : String :=
  let num_sources := sources.length
  "The backup of " ++ toString num_sources ++
    " sources has been completed and saved to " ++ destination ++
    " (size: " ++ fmt2 (getsize zip_filepath) ++ " MB)."

example : fmt2 0 = "0.00" := by decide
example : fmt2 1048576 = "1.00" := by decide
example : fmt2 1572864 = "1.50" := by decide
example : fmt2 5242 = "0.00" := by decide
example : fmt2 5243 = "0.01" := by decide

/-! ### Orchestration (`zipources`, `main`) -/

/-- Outcome of one pipeline run: the handle events performed, the error that
propagated (if any), and the summary line printed (if reached). -/
structure RunResult where
  trace : List Event
  failure : Option String
  printed : Option String
deriving DecidableEq

/-- Embeds `zipources`: timestamp, path construction, archive writing, then
the summary; an exception from the writing step propagates and the summary
is never printed. -/
def zipources (now : DateTime) (failWrite : String → Bool) (openFails : Bool)
    (getsize : String → Nat) (fs : FSNode) (sources : List String)
    (destination : String) (name : Option String) : RunResult :=
  let current_time := get_current_time now
  let zip_filepath := create_zip_filepath current_time destination name
  let r := create_zip_file fs failWrite openFails zip_filepath sources
  match r.2 with
  | some e => ⟨r.1, some e, none⟩
  | none => ⟨r.1, none, some (print_finish_message getsize sources destination zip_filepath)⟩

/-- The parsed command line (`parse_args`): one or more sources, a
destination, an optional name. -/
structure Args where
  source : List String
  destination : String
  name : Option String

/-- The type of the backup pipeline entry point as `main` would call it. -/
abbrev PipelineFn :=
  DateTime → (String → Bool) → Bool → (String → Nat) → FSNode →
    List String → String → Option String → RunResult

/-- The module-level bindings that could serve as the backup entry point.
Line 111 of the source defines the function under the name `zipources`. -/
def module_function_table : List (String × PipelineFn) :=
  [("zipources", fun now fw op gs fs s d n => zipources now fw op gs fs s d n)]

/-- The name `main` uses at its call site on line 146. -/
def mainBackupCallName : String := "zip_sources"

/-- Embeds `main`: create the destination directory if missing, then call
the backup function by the name written at line 146. Looking up a name with
no module-level binding raises `NameError`. -/
def main (now : DateTime) (failWrite : String → Bool) (openFails : Bool)
    (getsize : String → Nat) (fs : FSNode) (args : Args) : Except String RunResult :=
  match main_prestep fs args.destination with
  | .error e => .error e
  | .ok fs2 =>
    match (module_function_table.find? (fun e => e.1 = mainBackupCallName)).map Prod.snd with
    | some f => .ok (f now failWrite openFails getsize fs2 args.source args.destination args.name)
    | none => .error ("NameError: name " ++ mainBackupCallName ++ " is not defined")

/-! ### Helper lemmas -/

theorem writeEntries_const_false (l : List String) :
    writeEntries (fun _ => false) l = (l.map Event.writeEntry, none) := by
  induction l with
  | nil => rfl
  | cons p rest ih => simp [writeEntries, ih]

theorem closeArchive_not_mem_writeEntries (fw : String → Bool) (l : List String) :
    Event.closeArchive ∉ (writeEntries fw l).1 := by
  induction l with
  | nil => simp [writeEntries]
  | cons p rest ih =>
    by_cases h : fw p <;> simp [writeEntries, h, ih]

theorem writeEntries_trace_of_none (fw : String → Bool) (l : List String)
    (h : (writeEntries fw l).2 = none) :
    (writeEntries fw l).1 = l.map Event.writeEntry := by
  induction l with
  | nil => rfl
  | cons p rest ih =>
    by_cases hp : fw p
    · simp [writeEntries, hp] at h
    · simp [writeEntries, hp] at h ⊢
      exact ih h

theorem writeEntries_fail_source (fw : String → Bool) (l : List String)
    (h : (writeEntries fw l).2.isSome) : ∃ p ∈ l, fw p = true := by
  induction l with
  | nil => simp [writeEntries] at h
  | cons p rest ih =>
    by_cases hp : fw p
    · exact ⟨p, List.mem_cons_self p rest, hp⟩
    · simp only [writeEntries, hp, if_neg] at h
      obtain ⟨q, hq, hfq⟩ := ih (by simpa using h)
      exact ⟨q, List.mem_cons_of_mem p hq, hfq⟩

theorem digitChar_isDigit {k : Nat} (h : k < 10) : (Nat.digitChar k).isDigit = true := by
  interval_cases k <;> decide

theorem create_zip_file_failure (fs : FSNode) (fw : String → Bool) (zp : String)
    (sources : List String) :
    (create_zip_file fs fw false zp sources).2 =
      (writeEntries fw (collectEntries fs sources)).2 := by
  unfold create_zip_file
  cases hw : (writeEntries fw (collectEntries fs sources)).2 <;> simp [hw]

theorem pad2_data {n : Nat} (h : n < 100) :
    (pad2 n).data = [Nat.digitChar (n / 10), Nat.digitChar (n % 10)] := by
  unfold pad2
  rw [if_pos h]

/-! ### Claims -/

/-- C1. The claim states that every invocation with valid arguments prints
the summary and exits 0. The code cannot do this for any input: line 146 of
`main` calls `zip_sources`, a name with no module-level binding (the
function is defined as `zipources` on line 111), so every run that survives
the destination pre-step raises `NameError` and the process exits nonzero;
`main` never returns a completed pipeline result. -/
theorem claim_C1_main_never_succeeds (now : DateTime) (failWrite : String → Bool)
    (openFails : Bool) (getsize : String → Nat) (fs : FSNode) (args : Args) :
    (∃ e, main now failWrite openFails getsize fs args = Except.error e) ∧
    (∀ fs2, main_prestep fs args.destination = Except.ok fs2 →
      main now failWrite openFails getsize fs args =
        Except.error ("NameError: name " ++ mainBackupCallName ++ " is not defined")) := by
  have hfind : module_function_table.find? (fun e => e.1 = mainBackupCallName) = none := rfl
  constructor
  · unfold main
    cases h : main_prestep fs args.destination with
    | error e => exact ⟨e, rfl⟩
    | ok fs2 =>
      refine ⟨"NameError: name " ++ mainBackupCallName ++ " is not defined", ?_⟩
      simp [hfind]
  · intro fs2 h
    unfold main
    rw [h, hfind]
    rfl

/-- Witness for C1: a concrete invocation with an existing source and a
creatable destination still ends in the `NameError`. -/
theorem claim_C1_main_never_succeeds_witness :
    main ⟨2026, 10, 12, 13, 45, 7⟩ (fun _ => false) false (fun _ => 0) exFs
        ⟨["a.txt"], "out", none⟩ =
      Except.error ("NameError: name " ++ mainBackupCallName ++ " is not defined") :=
  (claim_C1_main_never_succeeds ⟨2026, 10, 12, 13, 45, 7⟩ (fun _ => false) false
    (fun _ => 0) exFs ⟨["a.txt"], "out", none⟩).2 _ rfl

/-- C2, as stated, is false: a nonexistent source does not make the run
fail. Here the sources list contains `missing`, which does not exist in
`exFs`, yet `create_zip_file` raises nothing: it returns no error, walks
nothing for the missing path, and still writes the archive (opening and
closing it around the one entry of the existing source). -/
theorem claim_C2_counterexample :
    osWalk exFs "missing" = [] ∧
      create_zip_file exFs (fun _ => false) false "out/b.zip" ["missing", "subdir"] =
        ([Event.openArchive "out/b.zip", Event.writeEntry "subdir/b.txt",
          Event.closeArchive], none) := by
  decide

/-- C2 amended: a source path that does not exist at walk time contributes
no walk triples and raises no error at all (`os.walk` swallows the failure
with its default `onerror=None`); when the filesystem accepts the open and
the writes, the whole archive-writing step completes normally, silently
skipping the missing source. No `SourceNotFoundError` exists anywhere in
the program. -/
theorem claim_C2_missing_source_silently_skipped (fs : FSNode) (p : String)
    (h : existsPath fs p = false) (zp : String) (sources : List String) :
    osWalk fs p = [] ∧
      (create_zip_file fs (fun _ => false) false zp sources).2 = none := by
  constructor
  · unfold existsPath at h
    unfold osWalk
    cases hres : resolve fs (splitPath p) with
    | none => rfl
    | some n => rw [hres] at h; simp at h
  · rw [create_zip_file_failure, writeEntries_const_false]

/-- Witness for the amended C2 at a concrete input. -/
theorem claim_C2_missing_source_silently_skipped_witness :
    existsPath exFs "missing" = false ∧
      (osWalk exFs "missing" = [] ∧
        (create_zip_file exFs (fun _ => false) false "out/b2.zip" ["missing"]).2 = none) :=
  ⟨by decide, claim_C2_missing_source_silently_skipped exFs "missing" (by decide)
    "out/b2.zip" ["missing"]⟩

/-- C3. The claim (and the docstrings of the source, which say a source may
be "the file or directory to be backed up") expect a regular-file source to
contribute its single file, so `["a.txt", "subdir/"]` should give a
2-entry archive. The code disagrees: `os.walk` on a non-directory yields no
triples at all, so `a.txt` is silently omitted and the archive receives
exactly one entry, `subdir/b.txt`. -/
theorem claim_C3_file_source_yields_nothing :
    osWalk exFs "a.txt" = [] ∧
      collectEntries exFs ["a.txt", "subdir/"] = ["subdir/b.txt"] ∧
      (collectEntries exFs ["a.txt", "subdir/"]).length = 1 := by
  decide

/-- C5. The summary line is exactly the stated template: the count is the
length of the top-level sources list (not a file count), and the printed
size is `getsize / (1024*1024)` rounded to two decimals. The second
conjunct makes the rounding claim precise: the printed hundredths value
`round2 b` differs from the exact value `100*b/1048576` by at most one
half, i.e. `2*|100*b - round2 b * 1048576| ≤ 1048576`, stated here as two
inequalities over naturals. -/
theorem claim_C5_summary_format (getsize : String → Nat) (sources : List String)
    (destination zip_filepath : String) :
    print_finish_message getsize sources destination zip_filepath =
      "The backup of " ++ toString sources.length ++
        " sources has been completed and saved to " ++ destination ++
        " (size: " ++ fmt2 (getsize zip_filepath) ++ " MB)." ∧
    2 * (100 * getsize zip_filepath) ≤ 2 * (round2 (getsize zip_filepath) * 1048576) + 1048576 ∧
    2 * (round2 (getsize zip_filepath) * 1048576) ≤ 2 * (100 * getsize zip_filepath) + 1048576 := by
  refine ⟨rfl, ?_⟩
  set b := getsize zip_filepath
  unfold round2
  split_ifs <;> omega

/-- C9. With an explicit name the archive path ignores the timestamp
entirely: any two timestamps give the same path `destination/X.zip`, and
re-running the archive-writing step at that same path succeeds again (mode
`w` recreates the file; no exists-check anywhere rejects it). -/
theorem claim_C9_named_path_deterministic (t1 t2 d x : String) :
    create_zip_filepath t1 d (some x) = create_zip_filepath t2 d (some x) ∧
    create_zip_filepath t1 d (some x) = d ++ "/" ++ (x ++ ".zip") ∧
    ∀ fs sources, (create_zip_file fs (fun _ => false) false
        (create_zip_filepath t1 d (some x)) sources).2 = none := by
  refine ⟨rfl, rfl, ?_⟩
  intro fs sources
  rw [create_zip_file_failure, writeEntries_const_false]

/-- C10. When the walks of all sources discover no files, the
archive-writing step still opens the archive at the computed path and
closes it, producing zero entries and no error; and the only ways it can
fail at all are a rejected open or a rejected write of a discovered
entry. -/
theorem claim_C10_empty_walk_archive (fs : FSNode) (failWrite : String → Bool)
    (openFails : Bool) (zp : String) (sources : List String) :
    (collectEntries fs sources = [] → openFails = false →
      create_zip_file fs failWrite openFails zp sources =
        ([Event.openArchive zp, Event.closeArchive], none)) ∧
    ((create_zip_file fs failWrite openFails zp sources).2.isSome →
      openFails = true ∨ ∃ p ∈ collectEntries fs sources, failWrite p = true) := by
  constructor
  · intro h ho
    subst ho
    simp [create_zip_file, h, writeEntries]
  · intro h
    by_cases ho : openFails
    · exact Or.inl ho
    · right
      apply writeEntries_fail_source
      rw [Bool.not_eq_true] at ho
      subst ho
      rw [create_zip_file_failure] at h
      exact h

/-- Witness for C10: a source that is an existing empty directory gives an
archive containing zero entries. -/
theorem claim_C10_empty_walk_archive_witness :
    collectEntries exFsEmpty ["emptydir"] = [] ∧ (false : Bool) = false ∧
      create_zip_file exFsEmpty (fun _ => false) false "out/e.zip" ["emptydir"] =
        ([Event.openArchive "out/e.zip", Event.closeArchive], none) :=
  ⟨by decide, rfl,
    (claim_C10_empty_walk_archive exFsEmpty (fun _ => false) false "out/e.zip"
      ["emptydir"]).1 (by decide) rfl⟩

/-- C6, as stated, is false: the archive handle is NOT closed on every exit
path. `create_zip_file` has no try/finally, so when a write raises, the
`close()` on line 89 is skipped. At this concrete input the write of
`subdir/b.txt` fails: the run aborts with the propagated error and the
trace contains no close event at all. -/
theorem claim_C6_counterexample :
    (zipources ⟨2026, 10, 12, 13, 45, 7⟩ (fun p => decide (p = "subdir/b.txt")) false
        (fun _ => 0) exFs ["subdir"] "out" (some "mybackup")).failure =
      some "ArchiveWriteError: subdir/b.txt" ∧
    Event.closeArchive ∉
      (zipources ⟨2026, 10, 12, 13, 45, 7⟩ (fun p => decide (p = "subdir/b.txt")) false
        (fun _ => 0) exFs ["subdir"] "out" (some "mybackup")).trace := by
  decide

/-- C6 amended: on the successful path the handle is closed (the close is
the final trace event) before the summary reads the archive size, so the
summary never reports on an unflushed file; but on a failing path (open
rejected, or any entry write rejected) the handle is never closed, and the
summary step is simply not reached because the exception propagates. -/
theorem claim_C6_close_only_on_success (now : DateTime) (failWrite : String → Bool)
    (openFails : Bool) (getsize : String → Nat) (fs : FSNode) (sources : List String)
    (destination : String) (name : Option String) (r : RunResult)
    (hr : r = zipources now failWrite openFails getsize fs sources destination name) :
    (r.failure = none → r.printed.isSome = true ∧
      ∃ pre, r.trace = pre ++ [Event.closeArchive] ∧ Event.closeArchive ∉ pre) ∧
    (r.failure.isSome = true → Event.closeArchive ∉ r.trace ∧ r.printed = none) := by
  subst hr
  cases openFails with
  | true =>
    have htr : zipources now failWrite true getsize fs sources destination name =
        ⟨[], some "ArchiveOpenError", none⟩ := by
      simp [zipources, create_zip_file]
    rw [htr]
    exact ⟨fun hc => by simp at hc, fun _ => ⟨by simp, rfl⟩⟩
  | false =>
    cases hw : (writeEntries failWrite (collectEntries fs sources)).2 with
    | none =>
      have htr : zipources now failWrite false getsize fs sources destination name =
          ⟨Event.openArchive (create_zip_filepath (get_current_time now) destination name) ::
              (writeEntries failWrite (collectEntries fs sources)).1 ++ [Event.closeArchive],
            none,
            some (print_finish_message getsize sources destination
              (create_zip_filepath (get_current_time now) destination name))⟩ := by
        simp [zipources, create_zip_file, hw]
      rw [htr]
      refine ⟨fun _ => ⟨rfl, ?_⟩, fun hc => by simp at hc⟩
      exact ⟨Event.openArchive (create_zip_filepath (get_current_time now) destination name) ::
          (writeEntries failWrite (collectEntries fs sources)).1,
        by simp, by simp [closeArchive_not_mem_writeEntries]⟩
    | some e =>
      have htr : zipources now failWrite false getsize fs sources destination name =
          ⟨Event.openArchive (create_zip_filepath (get_current_time now) destination name) ::
              (writeEntries failWrite (collectEntries fs sources)).1,
            some e, none⟩ := by
        simp [zipources, create_zip_file, hw]
      rw [htr]
      refine ⟨fun hc => by simp at hc, fun _ => ⟨?_, rfl⟩⟩
      simp [closeArchive_not_mem_writeEntries]

/-- Witness for the amended C6 at a concrete input that succeeds. -/
theorem claim_C6_close_only_on_success_witness :
    (zipources ⟨2026, 10, 12, 13, 45, 7⟩ (fun _ => false) false (fun _ => 0) exFs
        ["subdir"] "out" (some "mybackup")).failure = none ∧
    ((zipources ⟨2026, 10, 12, 13, 45, 7⟩ (fun _ => false) false (fun _ => 0) exFs
        ["subdir"] "out" (some "mybackup")).printed.isSome = true ∧
      ∃ pre, (zipources ⟨2026, 10, 12, 13, 45, 7⟩ (fun _ => false) false (fun _ => 0) exFs
          ["subdir"] "out" (some "mybackup")).trace = pre ++ [Event.closeArchive] ∧
        Event.closeArchive ∉ pre) :=
  ⟨by decide,
    (claim_C6_close_only_on_success ⟨2026, 10, 12, 13, 45, 7⟩ (fun _ => false) false
      (fun _ => 0) exFs ["subdir"] "out" (some "mybackup") _ rfl).1 (by decide)⟩

/-- C8. On a successful run the names stored in the archive are exactly the
paths the walk produced: for every source, for every walk triple, the join
of the triple root with each file name, in order, with no relativization
against the source root. Every stored name arises as such a join. -/
theorem claim_C8_entry_names (fs : FSNode) (failWrite : String → Bool) (zp : String)
    (sources : List String)
    (h : (create_zip_file fs failWrite false zp sources).2 = none) :
    writtenNames (create_zip_file fs failWrite false zp sources).1 =
      collectEntries fs sources ∧
    ∀ p ∈ collectEntries fs sources, ∃ source ∈ sources, ∃ t ∈ osWalk fs source,
      ∃ file ∈ t.2.2, p = pjoin t.1 file := by
  constructor
  · rw [create_zip_file_failure] at h
    have h1 := writeEntries_trace_of_none failWrite (collectEntries fs sources) h
    have hcomp : ((fun e =>
        match e with
        | Event.writeEntry p => some p
        | _ => none) ∘ Event.writeEntry) = some := rfl
    simp [create_zip_file, h, h1, writtenNames, List.filterMap_append, List.filterMap_map,
      hcomp]
  · intro p hp
    unfold collectEntries at hp
    rw [List.mem_flatMap] at hp
    obtain ⟨s, hs, hp2⟩ := hp
    rw [List.mem_flatMap] at hp2
    obtain ⟨t, ht, hp3⟩ := hp2
    rw [List.mem_map] at hp3
    obtain ⟨f, hf, rfl⟩ := hp3
    exact ⟨s, hs, t, ht, f, hf, rfl⟩

/-- Witness for C8 at a concrete input; the single stored entry keeps the
leading directory component `subdir` of the source argument. -/
theorem claim_C8_entry_names_witness :
    ((create_zip_file exFs (fun _ => false) false "out/mybackup.zip" ["subdir"]).2 = none ∧
      collectEntries exFs ["subdir"] = ["subdir/b.txt"]) ∧
    (writtenNames (create_zip_file exFs (fun _ => false) false "out/mybackup.zip"
        ["subdir"]).1 = collectEntries exFs ["subdir"] ∧
      ∀ p ∈ collectEntries exFs ["subdir"], ∃ source ∈ ["subdir"],
        ∃ t ∈ osWalk exFs source, ∃ file ∈ t.2.2, p = pjoin t.1 file) :=
  ⟨⟨by decide, by decide⟩,
    claim_C8_entry_names exFs (fun _ => false) "out/mybackup.zip" ["subdir"] (by decide)⟩

/-- C4. The archive path is the destination joined with `backup_<t>.zip`
when no name is given and with `<name>.zip` otherwise, and the default file
name produced from any wall-clock instant (all `strftime` fields being
two-digit values) matches `backup_\d\d-\d\d-\d\d_\d\d-\d\d-\d\d.zip`. -/
theorem claim_C4_archive_path (t d x : String) (dt : DateTime)
    (hday : dt.day < 100) (hmonth : dt.month < 100) (hhour : dt.hour < 100)
    (hminute : dt.minute < 100) (hsecond : dt.second < 100) :
    create_zip_filepath t d none = d ++ "/" ++ ("backup_" ++ t ++ ".zip") ∧
    create_zip_filepath t d (some x) = d ++ "/" ++ (x ++ ".zip") ∧
    matchesBackupPattern ("backup_" ++ get_current_time dt ++ ".zip") = true := by
  refine ⟨rfl, rfl, ?_⟩
  have hdash : ("-" : String).data = ['-'] := rfl
  have hus : ("_" : String).data = ['_'] := rfl
  have hts : (get_current_time dt).data =
      [Nat.digitChar (dt.day / 10), Nat.digitChar (dt.day % 10), '-',
       Nat.digitChar (dt.month / 10), Nat.digitChar (dt.month % 10), '-',
       Nat.digitChar (dt.year % 100 / 10), Nat.digitChar (dt.year % 100 % 10), '_',
       Nat.digitChar (dt.hour / 10), Nat.digitChar (dt.hour % 10), '-',
       Nat.digitChar (dt.minute / 10), Nat.digitChar (dt.minute % 10), '-',
       Nat.digitChar (dt.second / 10), Nat.digitChar (dt.second % 10)] := by
    simp [get_current_time, String.data_append, hdash, hus, pad2_data hday,
      pad2_data hmonth, pad2_data hhour, pad2_data hminute, pad2_data hsecond,
      pad2_data (Nat.mod_lt dt.year (by norm_num) : dt.year % 100 < 100)]
  have h7 : ("backup_" : String).data = ['b', 'a', 'c', 'k', 'u', 'p', '_'] := rfl
  have h4 : (".zip" : String).data = ['.', 'z', 'i', 'p'] := rfl
  unfold matchesBackupPattern
  rw [String.data_append, String.data_append, h7, h4, hts, List.append_assoc]
  rw [show (7 : Nat) = (['b', 'a', 'c', 'k', 'u', 'p', '_'] : List Char).length from rfl,
    List.take_left, List.drop_left]
  rw [show (17 : Nat) =
      ([Nat.digitChar (dt.day / 10), Nat.digitChar (dt.day % 10), '-',
        Nat.digitChar (dt.month / 10), Nat.digitChar (dt.month % 10), '-',
        Nat.digitChar (dt.year % 100 / 10), Nat.digitChar (dt.year % 100 % 10), '_',
        Nat.digitChar (dt.hour / 10), Nat.digitChar (dt.hour % 10), '-',
        Nat.digitChar (dt.minute / 10), Nat.digitChar (dt.minute % 10), '-',
        Nat.digitChar (dt.second / 10), Nat.digitChar (dt.second % 10)] :
        List Char).length from rfl,
    List.take_left, List.drop_left]
  simp [isTimestampShape,
    digitChar_isDigit (show dt.day / 10 < 10 by omega),
    digitChar_isDigit (show dt.day % 10 < 10 by omega),
    digitChar_isDigit (show dt.month / 10 < 10 by omega),
    digitChar_isDigit (show dt.month % 10 < 10 by omega),
    digitChar_isDigit (show dt.year % 100 / 10 < 10 by omega),
    digitChar_isDigit (show dt.year % 100 % 10 < 10 by omega),
    digitChar_isDigit (show dt.hour / 10 < 10 by omega),
    digitChar_isDigit (show dt.hour % 10 < 10 by omega),
    digitChar_isDigit (show dt.minute / 10 < 10 by omega),
    digitChar_isDigit (show dt.minute % 10 < 10 by omega),
    digitChar_isDigit (show dt.second / 10 < 10 by omega),
    digitChar_isDigit (show dt.second % 10 < 10 by omega)]

theorem findEntry_appendEntry (target : String) (c : FSNode) :
    ∀ entries : FSEntries, findEntry target entries = none →
      findEntry target (appendEntry target c entries) = some c
  | .nil, _ => by simp [appendEntry, findEntry]
  | .cons m node rest, h => by
    by_cases hm : m = target
    · simp [findEntry, hm] at h
    · simp only [findEntry, hm, if_neg, not_false_iff] at h
      simp only [appendEntry, findEntry, hm, if_neg, not_false_iff]
      exact findEntry_appendEntry target c rest h

theorem findEntry_replaceEntry (target : String) (c2 : FSNode) :
    ∀ entries : FSEntries, (findEntry target entries).isSome →
      findEntry target (replaceEntry target c2 entries) = some c2
  | .nil, h => by simp [findEntry] at h
  | .cons m node rest, h => by
    by_cases hm : m = target
    · simp [replaceEntry, findEntry, hm]
    · simp only [findEntry, hm, if_neg, not_false_iff] at h
      simp only [replaceEntry, findEntry, hm, if_neg, not_false_iff]
      exact findEntry_replaceEntry target c2 rest h

theorem isFileOpt_resolve_dirnil (l : List String) :
    isFileOpt (resolve (.dir .nil) l) = false := by
  cases l with
  | nil => rfl
  | cons a as => simp [resolve, findEntry, isFileOpt]

theorem makedirs_creates (comps : List String) : ∀ fs : FSNode, comps ≠ [] →
    (∀ k, isFileOpt (resolve fs (comps.take k)) = false) →
    resolve fs comps = none →
    ∃ fs2, makedirs fs comps = .ok fs2 ∧ ∀ k, dirExistsAt fs2 (comps.take k) = true := by
  induction comps with
  | nil => exact fun fs hne _ _ => absurd rfl hne
  | cons n rest ih =>
    intro fs _ hnof habs
    have h0 := hnof 0
    cases fs with
    | file s => simp [resolve, isFileOpt] at h0
    | dir entries =>
      cases rest with
      | nil =>
        have hfind : findEntry n entries = none := by
          cases hf : findEntry n entries with
          | none => rfl
          | some c => simp [resolve, hf] at habs
        refine ⟨.dir (appendEntry n (.dir .nil) entries), ?_, ?_⟩
        · simp [makedirs, hfind]
        · intro k
          cases k with
          | zero => rfl
          | succ k2 =>
            simp [dirExistsAt, resolve, findEntry_appendEntry n _ entries hfind, isDirOpt]
      | cons r1 rs =>
        cases hf : findEntry n entries with
        | some c =>
          have habs2 : resolve c (r1 :: rs) = none := by
            simpa [resolve, hf] using habs
          have hnof2 : ∀ k, isFileOpt (resolve c ((r1 :: rs).take k)) = false := by
            intro k
            have hk := hnof (k + 1)
            simpa [resolve, hf, List.take_succ_cons] using hk
          obtain ⟨c2, hmk, hpost⟩ := ih c (by simp) hnof2 habs2
          refine ⟨.dir (replaceEntry n c2 entries), ?_, ?_⟩
          · simp [makedirs, hf, hmk, Except.map]
          · intro k
            cases k with
            | zero => rfl
            | succ k2 =>
              have hfr : findEntry n (replaceEntry n c2 entries) = some c2 :=
                findEntry_replaceEntry n c2 entries (by simp [hf])
              simpa [dirExistsAt, resolve, hfr, List.take_succ_cons] using hpost k2
        | none =>
          have hnof2 : ∀ k, isFileOpt (resolve (.dir .nil) ((r1 :: rs).take k)) = false :=
            fun k => isFileOpt_resolve_dirnil _
          have habs2 : resolve (.dir .nil) (r1 :: rs) = none := rfl
          obtain ⟨c2, hmk, hpost⟩ := ih (.dir .nil) (by simp) hnof2 habs2
          refine ⟨.dir (appendEntry n c2 entries), ?_, ?_⟩
          · simp [makedirs, hf, hmk, Except.map]
          · intro k
            cases k with
            | zero => rfl
            | succ k2 =>
              have hfa : findEntry n (appendEntry n c2 entries) = some c2 :=
                findEntry_appendEntry n c2 entries hf
              simpa [dirExistsAt, resolve, hfa, List.take_succ_cons] using hpost k2

/-- C7. The destination pre-step of `main` creates the destination
directory, with every missing parent, exactly when `os.path.exists` is
false, and touches nothing when the path already exists. The creation
hypothesis asks that no proper ancestor of the destination is a regular
file, since `os.makedirs` would be rejected by the filesystem there; under
it, after the pre-step the destination and all its ancestors exist as
directories. The pre-step runs before the backup call of `main`, hence
before any archive open. -/
theorem claim_C7_destination_creation (fs : FSNode) (d : String) :
    (existsPath fs d = true → main_prestep fs d = .ok fs) ∧
    (existsPath fs d = false → splitPath d ≠ [] →
      (∀ k, k ≤ (splitPath d).length →
        isFileOpt (resolve fs ((splitPath d).take k)) = false) →
      ∃ fs2, main_prestep fs d = .ok fs2 ∧
        ∀ k, dirExistsAt fs2 ((splitPath d).take k) = true) := by
  constructor
  · intro h
    simp [main_prestep, h]
  · intro hex hne hnof
    have habs : resolve fs (splitPath d) = none := by
      unfold existsPath at hex
      cases hres : resolve fs (splitPath d) with
      | none => rfl
      | some c => rw [hres] at hex; simp at hex
    have hnof2 : ∀ k, isFileOpt (resolve fs ((splitPath d).take k)) = false := by
      intro k
      by_cases hk : k ≤ (splitPath d).length
      · exact hnof k hk
      · rw [List.take_of_length_le (by omega), habs]
        rfl
    obtain ⟨fs2, hmk, hpost⟩ := makedirs_creates (splitPath d) fs hne hnof2 habs
    exact ⟨fs2, by simp [main_prestep, hex, hmk], hpost⟩

/-- Witness for C7: an existing destination is left alone, and a two-level
missing destination is created together with its parent. -/
theorem claim_C7_destination_creation_witness :
    (existsPath exFs "subdir" = true ∧ main_prestep exFs "subdir" = .ok exFs) ∧
    (∃ fs2, main_prestep exFs "out/sub" = .ok fs2 ∧
      ∀ k, dirExistsAt fs2 ((splitPath "out/sub").take k) = true) :=
  ⟨⟨by decide, (claim_C7_destination_creation exFs "subdir").1 (by decide)⟩,
    (claim_C7_destination_creation exFs "out/sub").2 (by decide) (by decide) (by decide)⟩

/-- Witness for C4 at a concrete instant. -/
theorem claim_C4_archive_path_witness :
    create_zip_filepath "12-10-26_13-45-07" "out" none =
      "out" ++ "/" ++ ("backup_" ++ "12-10-26_13-45-07" ++ ".zip") ∧
    create_zip_filepath "12-10-26_13-45-07" "out" (some "mybackup") =
      "out" ++ "/" ++ ("mybackup" ++ ".zip") ∧
    matchesBackupPattern ("backup_" ++ get_current_time ⟨2026, 10, 12, 13, 45, 7⟩ ++
      ".zip") = true :=
  claim_C4_archive_path "12-10-26_13-45-07" "out" "mybackup" ⟨2026, 10, 12, 13, 45, 7⟩
    (by decide) (by decide) (by decide) (by decide) (by decide)

end Backup
